import Mathlib

/-!
Shallow embedding of `src/browserExt/proxy.js` (Zotero Connectors proxy engine):
the scheme compiler (`Zotero.Proxy.prototype.compileRegexp`), the URL transforms
(`toProper`, `toProxy`), the registry (`Zotero.Proxies.save`, `properToProxy`,
`proxyToProper`), the redirect decision (`_maybeRedirect`), the host blacklist
(`_isBlacklisted`) and the passive detectors (`Zotero.Proxies.Detectors.EZProxy`
with its `learn` step, and `Zotero.Proxies.Detectors.Juniper`).

JavaScript strings are modelled as Lean `String`s (operated on via `List Char`),
JS `null`/`undefined` string positions as `Option String`, and the handful of
fixed regular expressions either as bespoke scanning functions (documented at
each definition) or, for the regexps built at runtime by `compileRegexp`, by a
small backtracking matcher with JavaScript `exec` priority semantics over the
exact fragment language that `compileRegexp` emits.
-/

set_option maxRecDepth 20000
set_option maxHeartbeats 4000000

namespace ZoteroProxies

/-! ## JavaScript string primitives -/

/-- First index at or after `start` where `pat` occurs in `s`, JS
`String.prototype.indexOf(pat, start)`; `-1` when absent. -/
def jsIndexOfFrom (s pat : String) (start : Nat) : Int :=
  match (List.range (s.data.length + 1)).find?
      (fun i => start ≤ i && pat.data.isPrefixOf (s.data.drop i)) with
  | some i => (i : Int)
  | none => -1

def jsIndexOf (s pat : String) : Int := jsIndexOfFrom s pat 0

/-- JS `String.prototype.lastIndexOf`. -/
def jsLastIndexOf (s pat : String) : Int :=
  match ((List.range (s.data.length + 1)).filter
      (fun i => pat.data.isPrefixOf (s.data.drop i))).getLast? with
  | some i => (i : Int)
  | none => -1

/-- JS `s.substr(start)` for a non-negative start. -/
def jsSubstrFrom (s : String) (start : Nat) : String := String.mk (s.data.drop start)

/-- JS `s.substr(0, len)`: a non-positive length yields the empty string. -/
def jsSubstr0 (s : String) (len : Int) : String :=
  if len ≤ 0 then "" else String.mk (s.data.take len.toNat)

/-- JS `s.indexOf(pat) != -1`. -/
def strContains (s pat : String) : Bool := jsIndexOf s pat ≠ -1

/-- JS `s.replace(pat, repl)` with a plain-string pattern: replaces the first
occurrence only. -/
def jsReplaceFirstStr (s pat repl : String) : String :=
  match (List.range (s.data.length + 1)).find?
      (fun i => pat.data.isPrefixOf (s.data.drop i)) with
  | some i => String.mk (s.data.take i ++ repl.data ++ s.data.drop (i + pat.data.length))
  | none => s

/-- Truthiness of a JS string-or-absent value: `undefined`/`null` and the empty
string are falsy. -/
def jsTruthyOpt : Option String → Bool
  | none => false
  | some s => s ≠ ""

/-- JS `String.prototype.toLowerCase` (ASCII range suffices here). -/
def strToLower (s : String) : String := String.mk (s.data.map Char.toLower)

/-- Split on a separator character (like JS `split`, used to model the regexp
label checks; the last fragment is dot-free by construction). -/
def splitOnDot : List Char → List (List Char)
  | [] => [[]]
  | x :: rest =>
    match splitOnDot rest with
    | [] => [[]]
    | g :: gs => if x = '.' then [] :: g :: gs else (x :: g) :: gs

/-! ## Model of node's legacy `url.parse`

The source obtains `var url = require('url')` and uses the fields `protocol`,
`host`, `hostname`, `port`, `path`, `query` and `href` of `url.parse(...)`.
Node is an external platform library (not part of this repository), modelled
here for the URL shapes the source handles: a protocol is a letter-led run of
scheme characters followed by `:`; with `//` the authority runs to the first
`/`, `?` or `#` and is lowercased, an optional `:port` split off at the last
colon; the fragment starts at the first `#` and is excluded from `path`;
`path` is pathname plus search, with pathname defaulting to `/` for slashed
protocols; `query` is the search without its `?`; `href` is the reassembly.
Userinfo (`user@host`) is not modelled (never produced by the source's flows). -/

structure URLRec where
  protocol : Option String := none
  host : Option String := none
  hostname : Option String := none
  port : Option String := none
  path : String := ""
  query : Option String := none
  href : String := ""
deriving DecidableEq, Repr

def isSchemeChar (c : Char) : Bool :=
  c.isAlpha || c.isDigit || c = '+' || c = '-' || c = '.'

def splitSearch (pathFrag : List Char) : String × Option String :=
  let pathname := pathFrag.takeWhile (fun c => c ≠ '?')
  let search := pathFrag.drop pathname.length
  (String.mk pathname,
   match search with
   | [] => none
   | _ :: q => some (String.mk q))

def splitPort (auth : List Char) : Option String × Option String :=
  match ((List.range auth.length).filter (fun i => auth.get? i = some ':')).getLast? with
  | some i =>
      if auth.drop (i + 1) = [] then (some (String.mk (auth.take i)), none)
      else (some (String.mk (auth.take i)), some (String.mk (auth.drop (i + 1))))
  | none => (some (String.mk auth), none)

def urlParse (s : String) : URLRec :=
  let cs := s.data
  let schemeChars := cs.takeWhile isSchemeChar
  if schemeChars ≠ [] ∧ cs.get? schemeChars.length = some ':' ∧
      (schemeChars.headD ' ').isAlpha then
    let protocol := (String.mk (schemeChars.map Char.toLower)) ++ ":"
    let rest := cs.drop (schemeChars.length + 1)
    if rest.take 2 = ['/', '/'] then
      let afterSlashes := rest.drop 2
      let auth := afterSlashes.takeWhile (fun c => c ≠ '/' && c ≠ '?' && c ≠ '#')
      let afterAuth := afterSlashes.drop auth.length
      let authL := auth.map Char.toLower
      let (hostname, port) := splitPort authL
      let pathFrag := afterAuth.takeWhile (fun c => c ≠ '#')
      let hash := afterAuth.drop pathFrag.length
      let (pathname, query) := splitSearch pathFrag
      let pathname := if pathname = "" then "/" else pathname
      let path := pathname ++ (match query with
        | none => ""
        | some q => "?" ++ q)
      let host := String.mk authL
      { protocol := some protocol, host := some host, hostname := hostname,
        port := port, path := path, query := query,
        href := protocol ++ "//" ++ host ++ path ++ String.mk hash }
    else
      let (pathname, query) := splitSearch rest
      { protocol := some protocol, path := pathname ++ (match query with
          | none => ""
          | some q => "?" ++ q), query := query, href := s }
  else
    let pathFrag := cs.takeWhile (fun c => c ≠ '#')
    let (pathname, query) := splitSearch pathFrag
    { path := pathname ++ (match query with
        | none => ""
        | some q => "?" ++ q), query := query, href := s }

/-! ## The top-two-domains check of `_maybeRedirect`

Source: `const top2DomainsRe = /[^\.]+\.[^\.]+$/` applied to a hostname. The
regexp matches exactly when the hostname ends in `label.label` with both labels
non-empty and the last dot-free, and the match is that two-label suffix. A
`null` hostname is coerced by `exec` to the string `"null"`, which contains no
dot, so it never matches. -/
def top2 : Option String → Option String
  | none => none
  | some s =>
    match (splitOnDot s.data).reverse with
    | lastLabel :: prevLabel :: _ =>
        if lastLabel ≠ [] && prevLabel ≠ [] then
          some (String.mk prevLabel ++ "." ++ String.mk lastLabel)
        else none
    | _ => none

/-! ## A small regular-expression engine

`compileRegexp` builds a pattern string of the form `^...$` whose body consists
of literal characters, backslash escapes produced by `quotemeta`, and the two
capture-group fragments `(.*?)` and `([a-zA-Z0-9]+\.[a-zA-Z0-9.]+)` substituted
for placeholders. The engine below parses exactly that fragment language
(anchored sequences of literals, classes, `.`; groups of quantified atoms
without nesting) and runs a backtracking match with JavaScript `exec` priority:
lazy repetition prefers fewest characters, greedy repetition prefers most,
earlier choice points dominate later ones, and captures are reported in order
of the groups' opening parentheses. -/

inductive RAtom where
  | lit (c : Char)
  | cls (ranges : List (Char × Char)) (singles : List Char)
  | dot
deriving DecidableEq, Repr

inductive RQuant where
  | one
  | starLazy
  | starGreedy
  | plusGreedy
deriving DecidableEq, Repr

structure RItem where
  atom : RAtom
  q : RQuant
deriving DecidableEq, Repr

inductive RPiece where
  | item (it : RItem)
  | group (its : List RItem)
deriving DecidableEq, Repr

def atomMatch : RAtom → Char → Bool
  | .lit c, c' => c = c'
  | .cls ranges singles, c' =>
      ranges.any (fun r => r.1 ≤ c' && c' ≤ r.2) || singles.any (fun c => c = c')
  | .dot, c' => c' ≠ '\n' && c' ≠ '\r'

/-- Length of the longest prefix of `s` whose characters all match `a`. -/
def leadRun (a : RAtom) : List Char → Nat
  | [] => 0
  | c :: cs => if atomMatch a c then leadRun a cs + 1 else 0

/-- Candidate consumption lengths for one quantified atom, in JS backtracking
priority order (lazy: fewest first; greedy: most first; `+` requires one). -/
def itemKs (it : RItem) (s : List Char) : List Nat :=
  match it.q with
  | .one =>
    match s with
    | [] => []
    | c :: _ => if atomMatch it.atom c then [1] else []
  | .starLazy => List.range (leadRun it.atom s + 1)
  | .starGreedy => (List.range (leadRun it.atom s + 1)).reverse
  | .plusGreedy => ((List.range (leadRun it.atom s + 1)).reverse).dropLast

/-- All suffixes reachable by matching the item sequence against a prefix of
`s`, in priority order. -/
def consumeItems : List RItem → List Char → List (List Char)
  | [], s => [s]
  | it :: its, s => (itemKs it s).flatMap (fun k => consumeItems its (s.drop k))

/-- All (remaining suffix, captures so far) pairs reachable by matching the
piece sequence against a prefix of `s`, in priority order. -/
def consumePieces : List RPiece → List Char → List (List Char × List (List Char))
  | [], s => [(s, [])]
  | .item it :: ps, s => (itemKs it s).flatMap (fun k => consumePieces ps (s.drop k))
  | .group its :: ps, s =>
      (consumeItems its s).flatMap (fun suf =>
        let cap := s.take (s.length - suf.length)
        (consumePieces ps suf).map (fun r => (r.1, cap :: r.2)))

/-! Pattern parser for the emitted fragment language. -/

def parseClsItems : List Char → List (Char × Char) → List Char → Option (RAtom × List Char)
  | ']' :: rest, ranges, singles => some (.cls ranges.reverse singles.reverse, rest)
  | '\\' :: c :: rest, ranges, singles => parseClsItems rest ranges (c :: singles)
  | c :: '-' :: c2 :: rest, ranges, singles => parseClsItems rest ((c, c2) :: ranges) singles
  | c :: rest, ranges, singles => parseClsItems rest ranges (c :: singles)
  | [], _, _ => none

def parseAtom : List Char → Option (RAtom × List Char)
  | '\\' :: c :: rest => some (.lit c, rest)
  | '[' :: rest => parseClsItems rest [] []
  | '.' :: rest => some (.dot, rest)
  | c :: rest =>
      if c = '(' || c = ')' || c = '*' || c = '+' || c = '?' || c = '^' ||
         c = '$' || c = '\\' then none
      else some (.lit c, rest)
  | [] => none

def applyQuant (a : RAtom) : List Char → RItem × List Char
  | '*' :: '?' :: rest => (⟨a, .starLazy⟩, rest)
  | '*' :: rest => (⟨a, .starGreedy⟩, rest)
  | '+' :: rest => (⟨a, .plusGreedy⟩, rest)
  | rest => (⟨a, .one⟩, rest)

def parseItemsFuel : Nat → List Char → Option (List RItem)
  | 0, _ => none
  | _ + 1, [] => some []
  | fuel + 1, cs =>
    match parseAtom cs with
    | none => none
    | some (a, rest) =>
      let (it, rest2) := applyQuant a rest
      match parseItemsFuel fuel rest2 with
      | none => none
      | some its => some (it :: its)

def parsePiecesFuel : Nat → List Char → Option (List RPiece)
  | 0, _ => none
  | _ + 1, [] => some []
  | fuel + 1, '(' :: rest =>
      let inner := rest.takeWhile (fun c => c ≠ ')')
      match rest.drop inner.length with
      | ')' :: rest2 =>
        match parseItemsFuel (inner.length + 1) inner with
        | none => none
        | some its =>
          match parsePiecesFuel fuel rest2 with
          | none => none
          | some ps => some (.group its :: ps)
      | _ => none
  | fuel + 1, cs =>
      match parseAtom cs with
      | none => none
      | some (a, rest) =>
        let (it, rest2) := applyQuant a rest
        match parsePiecesFuel fuel rest2 with
        | none => none
        | some ps => some (.item it :: ps)

/-- Parse a `^...$`-anchored pattern of the emitted fragment language. -/
def parseRegex (pat : String) : Option (List RPiece) :=
  match pat.data with
  | '^' :: rest =>
    match rest.reverse with
    | '$' :: revBody => parsePiecesFuel (rest.length + 1) revBody.reverse
    | _ => none
  | _ => none

/-- JS `regexp.exec(input)` for the compiled, fully anchored proxy patterns:
`some (m0 :: groups)` on success where `m0` is the full match (the whole
input, by anchoring) and `groups` are the capture groups in order. -/
def regexExec (pat : String) (input : String) : Option (List String) :=
  match parseRegex pat with
  | none => none
  | some ps =>
    match (consumePieces ps input.data).find? (fun r => r.1.isEmpty) with
    | none => none
    | some (_, caps) => some (input :: caps.map (fun l => String.mk l))

/-! ## Host blacklist (`_isBlacklisted`) -/

/-- The fixed blacklist patterns `/edu$/`, `/google\.com$/`, `/wikipedia\.org$/`,
`/^[^.]*$/`, `/doubleclick\.net$/` as suffix / shape tests. -/
def hostBlacklistTest (h : String) : Bool :=
  "edu".data.isSuffixOf h.data ||
  "google.com".data.isSuffixOf h.data ||
  "wikipedia.org".data.isSuffixOf h.data ||
  h.data.all (fun c => c ≠ '.') ||
  "doubleclick.net".data.isSuffixOf h.data

/-- The fixed whitelist patterns `/^scholar\.google\.com$/`, `/^muse\.jhu\.edu$/`
(fully anchored, hence equality tests). -/
def hostWhitelistTest (h : String) : Bool :=
  h = "scholar.google.com" || h = "muse.jhu.edu"

/-- `_isBlacklisted(host)`: the first matching blacklist pattern triggers the
whitelist check; a whitelist hit always overrides. -/
def _isBlacklisted (host : String) : Bool :=
  if hostBlacklistTest host then
    if hostWhitelistTest host then false else true
  else false

/-! ## The scheme compiler (`Zotero.Proxy.prototype.compileRegexp`) -/

/-- Modelled from the spec: `Zotero.Utilities.quotemeta` (repository code outside
`src/browserExt/proxy.js`) literal-escapes every regexp metacharacter of the
template with a backslash ("literal-escaping every other character of the
template", spec section 4.1, step 4). `%`, `/` and `:` are not metacharacters and
stay unescaped. -/
def isQuoteMeta (c : Char) : Bool :=
  c = '-' || c = '[' || c = ']' || c = '\x7b' || c = '\x7d' || c = '(' ||
  c = ')' || c = '*' || c = '+' || c = '?' || c = '.' || c = '\\' ||
  c = '^' || c = '$' || c = '|' || c = ',' || c = '#' || c.isWhitespace

def quotemeta (s : String) : String :=
  String.mk (s.data.flatMap (fun c => if isQuoteMeta c then ['\\', c] else [c]))

/-- Capture fragment for `%h` (source string literal
`"([a-zA-Z0-9]+\\.[a-zA-Z0-9\.]+)"`; in JS the unrecognized escape `\.` inside
the second class collapses to a plain `.`). -/
def hFragment : String := "([a-zA-Z0-9]+\\.[a-zA-Z0-9.]+)"

/-- `Zotero_Proxy_schemeParameters` maps each candidate placeholder to its
capture fragment. The source keys the object with `%p`, `%d`, `%f`, `%a`;
`compileRegexp` aliases it (no copy) and adds `%h` to the *shared* object when
compiling a multi-host proxy, so `hAdded` records whether any multi-host proxy
has been compiled before. `for..in` enumerates keys in insertion order. -/
def Zotero_Proxy_schemeParameters (hAdded : Bool) : List String :=
  ["%p", "%d", "%f", "%a"] ++ (if hAdded then ["%h"] else [])

def paramFragment (p : String) : String := if p = "%h" then hFragment else "(.*?)"

/-- The escape-scanning while loop of `compileRegexp`: starting from the first
occurrence of `param`, while the character before the occurrence is `%`, delete
that `%` from the scheme and look for the next occurrence from `index+1`.
Fuel is the scheme length (each iteration deletes one character). -/
def escapeScanLoop (param : String) : Nat → String → Int → String × Int
  | 0, s, idx => (s, idx)
  | fuel + 1, s, idx =>
    if 1 ≤ idx ∧ s.data.get? (idx.toNat - 1) = some '%' then
      let s' := String.mk (s.data.take (idx.toNat - 1) ++ s.data.drop idx.toNat)
      escapeScanLoop param fuel s' (jsIndexOfFrom s' param (idx + 1).toNat)
    else (s, idx)

def escapeScan (s : String) (param : String) : String × Int :=
  escapeScanLoop param s.data.length s (jsIndexOf s param)

/-- The parameter-scanning for-in loop: for each candidate placeholder, run the
escape scan (mutating the scheme), and record index and parameter when found. -/
def compileScan : List String → String → List (String × Nat) → List String →
    String × List (String × Nat) × List String
  | [], scheme, ind, params => (scheme, ind, params)
  | p :: rest, scheme, ind, params =>
    let (scheme', idx) := escapeScan scheme p
    if idx ≠ -1 then compileScan rest scheme' (ind ++ [(p, idx.toNat)]) (params ++ [p])
    else compileScan rest scheme' ind params

/-- Lookup in a JS-object-as-association-list (unique keys). -/
def alistLookup {α β : Type} [DecidableEq α] : List (α × β) → α → Option β
  | [], _ => none
  | e :: rest, k => if e.1 = k then some e.2 else alistLookup rest k

/-- JS object assignment `o[k] = v`: remove any old binding, append the new
one (observationally the same lookup behavior). -/
def alistSet {α β : Type} [DecidableEq α] (l : List (α × β)) (k : α) (v : β) :
    List (α × β) :=
  l.filter (fun e => e.1 ≠ k) ++ [(k, v)]

def indLookup (ind : List (String × Nat)) (p : String) : Option Nat := alistLookup ind p

def indOf (ind : List (String × Nat)) (p : String) : Nat := (indLookup ind p).getD 0

/-- `this.parameters.sort(function(a,b){ return indices[a]-indices[b] })`:
sort ascending by recorded index (indices are pairwise distinct). -/
def insertByIdx (ind : List (String × Nat)) (p : String) : List String → List String
  | [] => [p]
  | q :: rest =>
      if indOf ind p < indOf ind q then p :: q :: rest else q :: insertByIdx ind p rest

def sortParams (ind : List (String × Nat)) (params : List String) : List String :=
  params.foldl (fun acc p => insertByIdx ind p acc) []

/-- `re.replace(/([^%])%X/, "$1" + frag)`: find the first position `j` with
`s[j] ≠ '%'`, `s[j+1] = '%'`, `s[j+2]` the placeholder letter, and replace the
three characters by `s[j]` followed by the fragment; no match leaves `re`
unchanged. -/
def findEscSpot (pc : Char) : List Char → Option Nat
  | c0 :: c1 :: c2 :: rest =>
      if c0 ≠ '%' ∧ c1 = '%' ∧ c2 = pc then some 0
      else (findEscSpot pc (c1 :: c2 :: rest)).map (· + 1)
  | _ => none

def replaceParamFirst (re : String) (param frag : String) : String :=
  match param.data.get? 1 with
  | none => re
  | some pc =>
    match findEscSpot pc re.data with
    | some j => String.mk (re.data.take (j + 1) ++ frag.data ++ re.data.drop (j + 3))
    | none => re

/-- A proxy object's relevant fields. `regexp`, `parameters` and `indices` are
the compiled artifacts (absent before compilation); `scheme` is mutable (the
escape scan strips escape characters in place). -/
structure ProxyData where
  scheme : String := ""
  multiHost : Bool := false
  autoAssociate : Bool := false
  hosts : List String := []
  regexp : Option String := none
  parameters : List String := []
  indices : List (String × Nat) := []
deriving DecidableEq, Repr

/-- `Zotero.Proxy.prototype.compileRegexp`. Takes and returns the state of the
shared `Zotero_Proxy_schemeParameters` object (`hAdded`: whether `%h` has been
added to it): the candidate list gains `%h` when this proxy is multi-host *or*
any previously compiled proxy was. -/
def compileRegexp (p : ProxyData) (hAdded : Bool) : ProxyData × Bool :=
  let checkList := Zotero_Proxy_schemeParameters (p.multiHost || hAdded)
  let res := compileScan checkList p.scheme [] []
  let sorted := sortParams res.2.1 res.2.2
  let re0 := "^" ++ quotemeta res.1 ++ "$"
  let re := sorted.reverse.foldl (fun acc q => replaceParamFirst acc q (paramFragment q)) re0
  ({ p with scheme := res.1, regexp := some re, parameters := sorted, indices := res.2.1 },
   hAdded || p.multiHost)

/-! ## The URL transforms (`toProper`, `toProxy`) -/

/-- JS `m[i]` on the exec result: out-of-range access yields `undefined`, which
stringifies to `"undefined"` when concatenated. -/
def mGet (m : List String) (i : Int) : String :=
  if i < 0 then "undefined" else m.getD i.toNat "undefined"

/-- JS `Array.prototype.indexOf` on the parameter list (`-1` when absent). -/
def jsArrIndexOf (l : List String) (x : String) : Int :=
  match l.findIdx? (fun y => y = x) with
  | some i => (i : Int)
  | none => -1

/-- JS truthiness of `this.indices["%p"]`: absent (`undefined`) and the number
`0` are both falsy. -/
def jsTruthyIdx : Option Nat → Bool
  | none => false
  | some n => n ≠ 0

/-- `Zotero.Proxy.prototype.toProper(m)`. -/
def toProper (p : ProxyData) (m : List String) : String :=
  let base :=
    if p.multiHost then "http://" ++ mGet m (jsArrIndexOf p.parameters "%h" + 1) ++ "/"
    else "http://" ++ p.hosts.getD 0 "undefined" ++ "/"
  if jsTruthyIdx (indLookup p.indices "%p") then
    base ++ mGet m (jsArrIndexOf p.parameters "%p" + 1)
  else
    let dir := mGet m (jsArrIndexOf p.parameters "%d" + 1)
    let file := mGet m (jsArrIndexOf p.parameters "%f" + 1)
    (if dir ≠ "" then base ++ dir ++ "/" else base) ++ file

/-- `Zotero.Proxy.prototype.toProxy(uri)`: starting from the scheme, substitute
each parameter in reverse position order; `%a` has no case and substitutes the
empty string; a `null` host stringifies to `"null"`. -/
def toProxy (p : ProxyData) (uri : URLRec) : String :=
  p.parameters.reverse.foldl (fun proxyURL param =>
    let value :=
      if param = "%h" then uri.host.getD "null"
      else if param = "%p" then jsSubstrFrom uri.path 1
      else if param = "%d" then jsSubstr0 uri.path (jsLastIndexOf uri.path "/")
      else if param = "%f" then jsSubstrFrom uri.path (jsLastIndexOf uri.path "/" + 1).toNat
      else ""
    let idx := (indOf p.indices param : Int)
    jsSubstr0 proxyURL idx ++ value ++ jsSubstrFrom proxyURL (idx + 2).toNat) p.scheme

/-! ## The registry (`Zotero.Proxies`)

Proxy objects are JS references; the registry is modelled by integer ids into a
store. `Zotero.Proxies.proxies` is the ordered id list, `Zotero.Proxies.hosts`
the host → proxy object map, and `hAdded` the state of the shared
`Zotero_Proxy_schemeParameters` object. JS object maps are modelled as
association lists with unique keys (assignment removes the old binding and
appends; `delete` filters), which has the same lookup behavior. -/

structure ProxiesState where
  proxies : List Nat := []
  store : List (Nat × ProxyData) := []
  hostsIdx : List (String × Nat) := []
  hAdded : Bool := false
  nextId : Nat := 0
deriving DecidableEq, Repr

def storeGet (st : ProxiesState) (id : Nat) : ProxyData :=
  (alistLookup st.store id).getD {}

def storeSet (st : ProxiesState) (id : Nat) (p : ProxyData) : ProxiesState :=
  { st with store := alistSet st.store id p }

/-- `Zotero.Proxies.save(proxy)`: append the proxy if new, compile if it has no
regexp (updating the shared parameter object), delete index entries that point
to this proxy for hosts it no longer lists, then index all of its hosts.
(The final `Zotero.Prefs.set` persistence call has no effect on this state.) -/
def save (st : ProxiesState) (id : Nat) : ProxiesState :=
  let st1 := if st.proxies.contains id then st else { st with proxies := st.proxies ++ [id] }
  let pc :=
    if (storeGet st1 id).regexp.isNone then compileRegexp (storeGet st1 id) st1.hAdded
    else (storeGet st1 id, st1.hAdded)
  let st2 := { storeSet st1 id pc.1 with hAdded := pc.2 }
  let idx1 := st2.hostsIdx.filter (fun e => ¬(e.2 = id ∧ ¬ pc.1.hosts.contains e.1))
  let idx2 := pc.1.hosts.foldl (fun acc h => alistSet acc h id) idx1
  { st2 with hostsIdx := idx2 }

/-- `Zotero.Proxies.proxyToProper(URL, true)`: first proxy whose regexp matches
wins; `false` (here `none`) when no proxy matches. -/
def proxyToProperList (st : ProxiesState) (URL : String) : List Nat → Option String
  | [] => none
  | id :: rest =>
    let p := storeGet st id
    match p.regexp with
    | none => proxyToProperList st URL rest
    | some pat =>
      match regexExec pat URL with
      | none => proxyToProperList st URL rest
      | some m => some (toProper p m)

def proxyToProper (st : ProxiesState) (URL : String) : Option String :=
  proxyToProperList st URL st.proxies

/-- `Zotero.Proxies.properToProxy(URL, true)`: look the parsed URL's `host` up
in the host index (a `null` host finds nothing). -/
def properToProxy (st : ProxiesState) (URL : String) : Option String :=
  let uri := urlParse URL
  match uri.host with
  | none => none
  | some h =>
    match indLookup st.hostsIdx h with
    | none => none
    | some id => some (toProxy (storeGet st id) uri)

/-! ## The redirect decision (`_maybeRedirect`) -/

/-- An intercepted exchange, as `observe`/`_maybeRedirect` consume it:
`reqReferer` is `details.requestHeaders['referer']` (headers lowercased by
`_processHeaders`), `respLocation`/`respServer`/`respReferer` the corresponding
lowercased response headers, `originUrl` is `details.originUrl`. -/
structure Details where
  url : String := ""
  statusCode : Nat := 200
  originUrl : Option String := none
  reqReferer : Option String := none
  respLocation : Option String := none
  respServer : Option String := none
  respReferer : Option String := none
deriving DecidableEq, Repr

/-- `_maybeRedirect(details, proxied)`: every guard exits with no redirect
(`none`); only the fall-through returns `{redirectUrl: proxied}`. -/
def maybeRedirect (st : ProxiesState) (d : Details) (proxied : String) : Option String :=
  if jsTruthyOpt d.reqReferer &&
      ((properToProxy st (d.reqReferer.getD "")).isSome ||
       (urlParse (d.reqReferer.getD "")).hostname == (urlParse proxied).hostname) then
    none
  else if jsTruthyOpt d.originUrl &&
      ((proxyToProper st (d.originUrl.getD "")).isSome ||
       (urlParse (d.originUrl.getD "")).hostname == (urlParse proxied).hostname) then
    none
  else
    match top2 (urlParse d.url).hostname, top2 (urlParse proxied).hostname with
    | some t1, some t2 => if t1 = t2 then none else some proxied
    | _, _ => none

/-! ## The EZProxy detector and its `learn` step -/

/-- `[80, 443].indexOf(port)` and the `80`/`443` entries of
`[loginURI.port, 80, 443].indexOf(...)`: `Array.prototype.indexOf` uses strict
equality, and node's `url.parse` produces ports as strings (or `null`), never
numbers, so a number entry is never found. -/
def indexOfNumsStr (_ns : List Nat) (_s : Option String) : Int := -1

/-- The `/(url|qurl)=([^&]+)/i` scan of `learn`: at each position, try `url=`
then `qurl=` case-insensitively; the value capture `([^&]+)` must be non-empty
or the match attempt at this position fails and scanning continues. Returns
(matched key text, value). -/
def learnQueryScanGo : List Char → Option (String × String)
  | [] => none
  | s@(_ :: rest) =>
    if (s.take 4).map Char.toLower = ['u', 'r', 'l', '='] then
      let v := (s.drop 4).takeWhile (fun c => c ≠ '&')
      if v.isEmpty then learnQueryScanGo rest
      else some (String.mk (s.take 3), String.mk v)
    else if (s.take 5).map Char.toLower = ['q', 'u', 'r', 'l', '='] then
      let v := (s.drop 5).takeWhile (fun c => c ≠ '&')
      if v.isEmpty then learnQueryScanGo rest
      else some (String.mk (s.take 4), String.mk v)
    else learnQueryScanGo rest

def learnQueryScan (q : String) : Option (String × String) := learnQueryScanGo q.data

def hexVal (c : Char) : Option Nat :=
  if '0' ≤ c ∧ c ≤ '9' then some (c.toNat - '0'.toNat)
  else if 'a' ≤ c ∧ c ≤ 'f' then some (c.toNat - 'a'.toNat + 10)
  else if 'A' ≤ c ∧ c ≤ 'F' then some (c.toNat - 'A'.toNat + 10)
  else none

/-- JS `decodeURI`: decodes `%XX` escapes except those of URI-reserved
characters and `#`, which stay encoded (this is why `decodeURI` never recovers
a URL whose `://` is percent-encoded). Malformed escapes are kept literally
(JS would throw a `URIError`; the detector's caller catches everything). -/
def jsDecodeURIGo : List Char → List Char
  | '%' :: h1 :: h2 :: rest =>
    (match hexVal h1, hexVal h2 with
     | some a, some b =>
       let c := Char.ofNat (16 * a + b)
       if c = '#' || c = ';' || c = '/' || c = '?' || c = ':' || c = '@' ||
          c = '&' || c = '=' || c = '+' || c = '$' || c = ',' then
         '%' :: h1 :: h2 :: jsDecodeURIGo rest
       else c :: jsDecodeURIGo rest
     | _, _ => '%' :: jsDecodeURIGo (h1 :: h2 :: rest))
  | c :: rest => c :: jsDecodeURIGo rest
  | [] => []

def jsDecodeURI (s : String) : String := String.mk (jsDecodeURIGo s.data)

/-- `Zotero.Proxies.Detectors.EZProxy.learn(loginURI, proxiedURI)`. A `null`
query is coerced by `exec` to the string `"null"`. In the proxy-by-port guard,
`[loginURI.port, 80, 443].indexOf(proxiedURI.port) == -1` reduces to
`proxiedURI.port !== loginURI.port` (strict equality never matches the number
entries). `proxiedURI.host.indexOf(properURI.hostname)` coerces a `null`
hostname to the substring `"null"`. -/
def ezproxyLearn (st : ProxiesState) (loginURI : URLRec) (proxiedURI : URLRec) :
    Option ProxyData :=
  match learnQueryScan (loginURI.query.getD "null") with
  | none => none
  | some (key, value) =>
    if (proxyToProper st proxiedURI.href).isSome then none
    else
      let properURL := if strToLower key = "qurl" then jsDecodeURI value else value
      let properURI := urlParse properURL
      if properURI.protocol.isNone then none
      else if loginURI.hostname = proxiedURI.hostname ∧
          (¬ jsTruthyOpt proxiedURI.port ∨ proxiedURI.port ≠ loginURI.port) then
        some { scheme := proxiedURI.protocol.getD "null" ++ "//" ++
                 proxiedURI.host.getD "null" ++ "/%p",
               multiHost := false, autoAssociate := false,
               hosts := [properURI.host.getD "null"] }
      else if proxiedURI.hostname ≠ loginURI.hostname ∧
          strContains (proxiedURI.host.getD "null") (properURI.hostname.getD "null") then
        some { scheme := proxiedURI.protocol.getD "null" ++ "//" ++
                 jsReplaceFirstStr (proxiedURI.host.getD "null")
                   (properURI.hostname.getD "null") "%h" ++ "/%p",
               multiHost := true, autoAssociate := true,
               hosts := [properURI.host.getD "null"] }
      else none

/-- First proxy (any kind) whose regexp matches, as in the detector's
`for (var proxy of Zotero.Proxies.proxies)` loop. -/
def firstRegexpMatchList (st : ProxiesState) (URL : String) :
    List Nat → Option (Nat × List String)
  | [] => none
  | id :: rest =>
    let p := storeGet st id
    match p.regexp with
    | none => firstRegexpMatchList st URL rest
    | some pat =>
      match regexExec pat URL with
      | none => firstRegexpMatchList st URL rest
      | some m => some (id, m)

def firstRegexpMatch (st : ProxiesState) (URL : String) : Option (Nat × List String) :=
  firstRegexpMatchList st URL st.proxies

/-- `Zotero.Proxies.Detectors.EZProxy(details)`. The first section (proxy-by-port
links) either falls through or returns `false` — when a known proxy matches
`fromProxy.href` it returns `false` both in the multi-host/already-known branch
and after spawning the cookie-stripping probe (an asynchronous side effect
outside this state). `url.parse` throws on an absent header; in the
301/302/303 branch that leaves both `toProxy` and `fromProxy` as `false`, in
the other branch `toProxy` has already been assigned `uri`. -/
def ezproxyDetector (st : ProxiesState) (d : Details) : Option ProxyData :=
  let uri := urlParse d.url
  let earlyReturn : Bool :=
    if (¬ jsTruthyOpt uri.port) || (indexOfNumsStr [80, 443] uri.port == -1) then
      let tpfp : Option URLRec × Option URLRec :=
        if [301, 302, 303].contains d.statusCode then
          match d.respLocation with
          | some loc => (some (urlParse loc), some uri)
          | none => (none, none)
        else
          match d.respReferer with
          | some ref => (some uri, some (urlParse ref))
          | none => (some uri, none)
      match tpfp with
      | (some toProxyU, some fromProxyU) =>
        if fromProxyU.hostname == toProxyU.hostname &&
           fromProxyU.port != toProxyU.port &&
           ((¬ jsTruthyOpt toProxyU.port) || (indexOfNumsStr [80, 443] toProxyU.port == -1)) then
          (firstRegexpMatch st fromProxyU.href).isSome
        else false
      | _ => false
    else false
  if earlyReturn then none
  else
    match d.respLocation with
    | none => none
    | some loc =>
      let proxiedURI := urlParse loc
      if proxiedURI.protocol.isNone ∨ d.statusCode ≠ 302 ∨
          d.respServer ≠ some "EZproxy" then none
      else ezproxyLearn st (urlParse d.url) proxiedURI

/-! ## The Juniper WebVPN detector -/

def lastOccurrence (s pat : List Char) : Option Nat :=
  ((List.range (s.length + 1)).filter (fun i => pat.isPrefixOf (s.drop i))).getLast?

/-- `Zotero.Proxies.Detectors.Juniper(details)`: the fixed regexp
`/^(https?:\/\/[^\/:]+(?:\:[0-9]+)?)\/(.*),DanaInfo=([^+,]*)([^+]*)(?:\+(.*))?$/`
translated structurally: scheme-and-host prefix (optional numeric port), a `/`,
then the greedy `(.*)` forces the *last* occurrence of `,DanaInfo=` (after
which the remaining sub-patterns always match to the end). -/
def juniperDetector (d : Details) : Option ProxyData :=
  let s := d.url.data
  let withProto (proto : List Char) : Option (List Char × List Char) :=
    if proto.isPrefixOf s then
      let afterP := s.drop proto.length
      let host := afterP.takeWhile (fun c => c ≠ '/' && c ≠ ':')
      if host.isEmpty then none
      else
        let afterH := afterP.drop host.length
        let portAfter : List Char × List Char :=
          match afterH with
          | ':' :: r =>
            let ds := r.takeWhile Char.isDigit
            if ds.isEmpty then ([], afterH) else (':' :: ds, r.drop ds.length)
          | _ => ([], afterH)
        match portAfter.2 with
        | '/' :: rest => some (proto ++ host ++ portAfter.1, rest)
        | _ => none
    else none
  match (withProto "https://".data).orElse (fun _ => withProto "http://".data) with
  | none => none
  | some (m1, rest) =>
    match lastOccurrence rest ",DanaInfo=".data with
    | none => none
    | some j =>
      let t := rest.drop (j + 10)
      let m3 := t.takeWhile (fun c => c ≠ '+' && c ≠ ',')
      some { scheme := String.mk m1 ++ "/%d" ++ ",DanaInfo=%h%a+%f",
             multiHost := true, autoAssociate := false,
             hosts := [String.mk m3] }

/-! ## The observe learning path -/

/-- Insert a freshly detected proxy object and `save` it, as the observe
callback does (`Zotero.Proxies.save(proxy)` on a brand-new object). -/
def saveNew (st : ProxiesState) (p : ProxyData) : ProxiesState :=
  save { storeSet st st.nextId p with nextId := st.nextId + 1 } st.nextId

/-- The detector pipeline of `observe`'s auto-recognize branch: detectors run
in namespace insertion order (`EZProxy`, then `Juniper`); the first to return a
proxy wins and is saved. -/
def detectAndSave (st : ProxiesState) (d : Details) : ProxiesState :=
  match ezproxyDetector st d with
  | some p => saveNew st p
  | none =>
    match juniperDetector d with
    | some p => saveNew st p
    | none => st

/-- First multi-host proxy with a regexp matching the URL
(`if (proxy.regexp && proxy.multiHost)`). -/
def firstMultiHostMatchList (st : ProxiesState) (URL : String) :
    List Nat → Option (Nat × List String)
  | [] => none
  | id :: rest =>
    let p := storeGet st id
    if p.multiHost then
      match p.regexp with
      | none => firstMultiHostMatchList st URL rest
      | some pat =>
        match regexExec pat URL with
        | none => firstMultiHostMatchList st URL rest
        | some m => some (id, m)
    else firstMultiHostMatchList st URL rest

def firstMultiHostMatch (st : ProxiesState) (URL : String) : Option (Nat × List String) :=
  firstMultiHostMatchList st URL st.proxies

/-- The learning part of `Zotero.Proxies.observe`: failed exchanges are ignored;
a matching multi-host proxy may auto-associate the captured host (guarded on
`autoAssociate`, success status, the host being unknown to index and proxy, and
the blacklist); otherwise, with auto-recognize enabled, the detector pipeline
runs. -/
def observeLearn (st : ProxiesState) (d : Details) : ProxiesState :=
  if d.statusCode ≥ 400 then st
  else
    match firstMultiHostMatch st d.url with
    | some (id, m) =>
      let p := storeGet st id
      let host := mGet m (jsArrIndexOf p.parameters "%h" + 1)
      if p.autoAssociate && d.statusCode < 400 && (indLookup st.hostsIdx host).isNone &&
         ¬ p.hosts.contains host && ¬ _isBlacklisted host then
        save (storeSet st id { p with hosts := p.hosts ++ [host] }) id
      else st
    | none => detectAndSave st d

/-! ## The cookie-stripping probe listener (`EZProxy.Listener`) -/

structure Header where
  name : String
  value : String
deriving DecidableEq, Repr

/-- The filter predicate of `Listener.prototype.onBeforeSendHeaders`:
`header.name.toLowerCase != 'cookie'` compares the *uninvoked* `toLowerCase`
method reference (a Function object) against a string with loose inequality; a
function value is never loosely equal to that string, so the predicate is true
for every header. -/
def cookieFilterKeeps (_h : Header) : Bool := true

/-- `Zotero.Proxies.Detectors.EZProxy.Listener.prototype.onBeforeSendHeaders`. -/
def listenerOnBeforeSendHeaders (requestHeaders : List Header) : List Header :=
  requestHeaders.filter cookieFilterKeeps

/-! ## The host-index invariant (spec section 3, ProxyRegistry) -/

/-- For every host listed by a registered proxy the index maps that host to that
proxy, and the index has no entry for a host no registered proxy lists. -/
def hostIndexInvariant (st : ProxiesState) : Prop :=
  (∀ id ∈ st.proxies, ∀ h ∈ (storeGet st id).hosts, alistLookup st.hostsIdx h = some id) ∧
  (∀ e ∈ st.hostsIdx, e.2 ∈ st.proxies ∧ e.1 ∈ (storeGet st e.2).hosts)

instance (st : ProxiesState) : Decidable (hostIndexInvariant st) := by
  unfold hostIndexInvariant; infer_instance

/-! ## Concrete instances used by the claims -/

/-- The spec's multi-host example model: template `https://%h.proxy.example.com/%a`,
`multiHost = true`, compiled in a fresh environment. -/
def mhModel : ProxyData :=
  (compileRegexp { scheme := "https://%h.proxy.example.com/%a", multiHost := true } false).1

/-- The match of `mhModel`'s regexp on the spec's example URL. -/
def mhMatch : List String :=
  ["https://journal.example.org.proxy.example.com/abstract", "journal.example.org",
   "abstract"]

/-- An exchange performing an EZProxy login with an *unencoded* `url=` query
parameter, answered 302 to the proxied (port-rewritten) URL. -/
def c3Exchange : Details :=
  { url := "http://ezproxy.example.edu/login?url=http://journal.example.org/path",
    statusCode := 302, respServer := some "EZproxy",
    respLocation := some "http://ezproxy.example.edu:2048/path" }

def c3State1 : ProxiesState := observeLearn {} c3Exchange

/-- The claim's literal exchange: status 302, `server: EZproxy`, and a
`location` header whose query carries `url=` with the percent-encoded target. -/
def c3ExchangeEncodedLoc : Details :=
  { url := "http://ezproxy.example.edu:2048/path",
    statusCode := 302, respServer := some "EZproxy",
    respLocation :=
      some "http://ezproxy.example.edu/login?url=http%3A%2F%2Fjournal.example.org%2Fpath" }

/-- Variant with the percent-encoded `url=` in the request URL's query (where
`learn` actually looks). -/
def c3ExchangeEncodedQuery : Details :=
  { url := "http://ezproxy.example.edu/login?url=http%3A%2F%2Fjournal.example.org%2Fpath",
    statusCode := 302, respServer := some "EZproxy",
    respLocation := some "http://ezproxy.example.edu:2048/path" }

/-- A compiled proxy serving host `x.org`. -/
def c6ProxyA : ProxyData :=
  { scheme := "https://proxya.example.com/%p", hosts := ["x.org"],
    regexp := some "^https://proxya\\.example\\.com/(.*?)$",
    parameters := ["%p"], indices := [("%p", 27)] }

/-- A not-yet-saved proxy listing the *same* host `x.org` (as the EZProxy
learner can produce: `learn` only checks whether the proxied URL is known, not
whether the canonical host is). -/
def c6ProxyB : ProxyData :=
  { scheme := "https://proxyb.example.com/%p", hosts := ["x.org"] }

/-- Registry with `c6ProxyA` saved and indexed, `c6ProxyB` created but not yet
registered. -/
def c6BadState : ProxiesState :=
  { proxies := [0], store := [(0, c6ProxyA), (1, c6ProxyB)],
    hostsIdx := [("x.org", 0)], nextId := 2 }

/-- Registry with one unregistered, uncompiled proxy, used to exercise `save`. -/
def c6FreshState : ProxiesState :=
  { store := [(0, { scheme := "https://proxy.example.com/%p",
                    hosts := ["journal.example.org"] })], nextId := 1 }

end ZoteroProxies

namespace ZoteroProxies

/-! # Theorems -/

/-- C8: the host blacklist predicate returns true for `math.google.com`, false
for `scholar.google.com` (the whitelist overrides the blacklist), and true for
the single-label host `onecompany`. -/
theorem c8_blacklist_cases :
    _isBlacklisted "math.google.com" = true ∧
    _isBlacklisted "scholar.google.com" = false ∧
    _isBlacklisted "onecompany" = true := by decide

/-- C9: the probe listener's `onBeforeSendHeaders` does *not* strip the cookie
header: the filter predicate compares the uninvoked `toLowerCase` method
reference against `'cookie'`, which is true for every header, so the returned
header set is the input unchanged — including its cookie header. This
contradicts the claim (and the source's own comments, which say the request is
sent without cookies to force the login redirect). -/
theorem c9_cookie_not_stripped :
    listenerOnBeforeSendHeaders
        [{ name := "Cookie", value := "session=abc" },
         { name := "Accept", value := "text/html" }] =
      [{ name := "Cookie", value := "session=abc" },
       { name := "Accept", value := "text/html" }] ∧
    ([{ name := "Cookie", value := "session=abc" },
      { name := "Accept", value := "text/html" }] : List Header).any
        (fun h => strToLower h.name = "cookie") = true := by decide

/-- C7: the candidate placeholder set is order-dependent, contradicting the
claim. In a fresh environment a `multiHost = false` compilation checks only
`{%p, %d, %f, %a}` (first conjunct), but compiling any multi-host proxy adds
`%h` to the shared `Zotero_Proxy_schemeParameters` object (second conjunct),
after which a `multiHost = false` proxy compiles with `%h` in its parameter
list (third conjunct) — the code's own comment says "take host only if flagged
as multiHost". -/
theorem c7_schemeParameters_leak :
    (compileRegexp
      { scheme := "https://%h.proxytwo.example.com/%p", multiHost := false }
      false).1.parameters = ["%p"] ∧
    (compileRegexp
      { scheme := "https://%h.proxyone.example.com/%p", multiHost := true }
      false).2 = true ∧
    (compileRegexp
      { scheme := "https://%h.proxytwo.example.com/%p", multiHost := false }
      (compileRegexp
        { scheme := "https://%h.proxyone.example.com/%p", multiHost := true }
        false).2).1.parameters = ["%h", "%p"] := by decide

/-- C4 counterexample: compiling a template with the unescaped, unrecognized
sequence `%z` does not fail — there is no `MalformedTemplateError` anywhere in
the source — it produces a regexp in which `%z` stands literally, and that
regexp matches the corresponding proxied URL. -/
theorem c4_compile_counterexample :
    (compileRegexp
      { scheme := "https://proxy.example.com/%z/%p", multiHost := false }
      false).1.regexp = some "^https://proxy\\.example\\.com/%z/(.*?)$" ∧
    regexExec "^https://proxy\\.example\\.com/%z/(.*?)$"
        "https://proxy.example.com/%z/abc" =
      some ["https://proxy.example.com/%z/abc", "abc"] := by decide

/-- C4 amended: compilation never rejects a template; an unescaped `%` sequence
that is not a recognized placeholder is preserved as a literal in the matcher,
and the resulting matcher is anchored to the template rather than matching
everything (it rejects unrelated URLs). -/
theorem c4_compile_amended :
    (compileRegexp
      { scheme := "https://proxy.example.com/%z/%p", multiHost := false }
      false).1.regexp = some "^https://proxy\\.example\\.com/%z/(.*?)$" ∧
    regexExec "^https://proxy\\.example\\.com/%z/(.*?)$"
        "https://proxy.example.com/abc/def" = none ∧
    regexExec "^https://proxy\\.example\\.com/%z/(.*?)$" "https://evil.example.com/x" =
      none := by decide

/-- C5 counterexample: for the multi-host model with template
`https://%h.proxy.example.com/%a`, the matcher does match the example URL with
host capture `journal.example.org` and remainder `abstract`, but `toProper`
does *not* produce `http://journal.example.org/abstract`. -/
theorem c5_toCanonical_counterexample :
    regexExec (mhModel.regexp.getD "")
        "https://journal.example.org.proxy.example.com/abstract" = some mhMatch ∧
    toProper mhModel mhMatch ≠ "http://journal.example.org/abstract" := by decide

/-- C5 amended: since the template has neither `%p` nor `%d`/`%f`, the `%d` and
`%f` lookups in `toProper` fall back to `m[0]` (the whole matched URL), so the
result is `http://journal.example.org/` followed by the full matched URL, a
slash, and the full matched URL again (host correctly taken from the `%h`
capture; path garbled). -/
theorem c5_toCanonical_amended :
    toProper mhModel mhMatch =
      "http://journal.example.org/https://journal.example.org.proxy.example.com/abstract/https://journal.example.org.proxy.example.com/abstract" := by
  decide

/-- C6 counterexample: saving a proxy whose `hosts` overlaps another registered
proxy's `hosts` breaks the invariant: the index entry for `x.org` is rebound to
the newly saved proxy while the old proxy still lists `x.org`. `save` performs
no cross-proxy deduplication (and the EZProxy learner only checks whether the
*proxied* URL is already recognized, not the canonical host). -/
theorem c6_invariant_counterexample :
    hostIndexInvariant c6BadState ∧ ¬ hostIndexInvariant (save c6BadState 1) := by
  decide

/-- C3 counterexample: the claim's exchange — status 302, `server: EZproxy`,
`location` carrying `login?url=http%3A%2F%2Fjournal.example.org%2Fpath` —
learns nothing: `learn` scans the *request* URL's query (not the location's)
for `url=`, and a percent-encoded value fails its protocol check because the
encoded `://` is never decoded (`decodeURI` keeps reserved characters encoded,
and the plain `url=` branch does not decode at all). The variant with the
encoded `url=` in the request query also learns nothing. -/
theorem c3_ezproxy_exchange_counterexample :
    observeLearn {} c3ExchangeEncodedLoc = ({} : ProxiesState) ∧
    observeLearn {} c3ExchangeEncodedQuery = ({} : ProxiesState) := by decide

/-- C3 amended: an exchange whose *request URL* query carries `url=` with the
*unencoded* target `http://journal.example.org/path`, answered 302 with
`server: EZproxy` and a `location` giving the port-rewritten proxied URL,
learns a port-by-port model (`multiHost = false`, scheme
`http://ezproxy.example.edu:2048/%p`) whose hosts include
`journal.example.org`, registered once; observing the identical exchange a
second time changes nothing — `learn` declines because `proxyToProper` already
recognizes the proxied URL. -/
theorem c3_ezproxy_learn_amended :
    c3State1.proxies = [0] ∧
    (storeGet c3State1 0).hosts = ["journal.example.org"] ∧
    (storeGet c3State1 0).multiHost = false ∧
    (storeGet c3State1 0).scheme = "http://ezproxy.example.edu:2048/%p" ∧
    observeLearn c3State1 c3Exchange = c3State1 := by decide

/-- C2: for every intercepted exchange and candidate proxied target,
`_maybeRedirect` decides no-redirect whenever the request's referrer hostname
equals the candidate target's hostname (either the referrer-proxiable guard or
the same-host guard fires, and when the referrer is the falsy empty string the
shared `null` hostname makes the final top-two-domains guard fail), and
whenever the last two dot-separated labels of the request URL's hostname equal
those of the candidate target's hostname (the final guard fires if no earlier
guard already did); under either condition no `Redirect` verdict is produced. -/
theorem c2_loop_guards_no_redirect (st : ProxiesState) (d : Details) (proxied : String)
    (h : (∃ r, d.reqReferer = some r ∧
            (urlParse r).hostname = (urlParse proxied).hostname) ∨
         (∃ t, top2 (urlParse d.url).hostname = some t ∧
            top2 (urlParse proxied).hostname = some t)) :
    maybeRedirect st d proxied = none := by
  rcases h with ⟨r, href, heq⟩ | ⟨t, ht1, ht2⟩
  · by_cases hr : r = ""
    · subst hr
      have hhn : (urlParse "").hostname = none := by decide
      rw [hhn] at heq
      unfold maybeRedirect
      split
      · rfl
      split
      · rfl
      rw [← heq]
      rcases htop : top2 (urlParse d.url).hostname with _ | t1 <;> simp [top2]
    · unfold maybeRedirect
      split
      · rfl
      · rename_i hcond
        exfalso
        apply hcond
        rw [href]
        simp [jsTruthyOpt, hr, heq]
  · unfold maybeRedirect
    split
    · rfl
    split
    · rfl
    rw [ht1, ht2]
    simp

theorem c2_loop_guards_witness :
    maybeRedirect {}
      { url := "https://journal.example.org/x",
        reqReferer := some "https://x.example.com/a" }
      "https://x.example.com/b" = none :=
  c2_loop_guards_no_redirect _ _ _
    (Or.inl ⟨"https://x.example.com/a", rfl, by decide⟩)

/-- C10: whenever the top-two-domains pattern fails on the request URL's
hostname or on the candidate proxied target's hostname (fewer than two
non-empty dot-separated labels — in particular any single-label host), every
path of `_maybeRedirect` decides no-redirect. -/
theorem c10_single_label_no_redirect (st : ProxiesState) (d : Details) (proxied : String)
    (h : top2 (urlParse d.url).hostname = none ∨
         top2 (urlParse proxied).hostname = none) :
    maybeRedirect st d proxied = none := by
  unfold maybeRedirect
  split
  · rfl
  split
  · rfl
  rcases hA : top2 (urlParse d.url).hostname with _ | t1 <;>
    rcases hB : top2 (urlParse proxied).hostname with _ | t2 <;>
      simp_all

theorem c10_single_label_witness :
    maybeRedirect {} { url := "https://localhost/x" }
      "https://proxy.example.com/x" = none :=
  c10_single_label_no_redirect _ _ _ (Or.inl (by decide))

/-! ## List, string and matcher lemmas for the round-trip theorem -/

theorem strMk_append (a b : List Char) : String.mk a ++ String.mk b = String.mk (a ++ b) := rfl

theorem alistLookup_append {α β : Type} [DecidableEq α] (l1 l2 : List (α × β)) (k : α) :
    alistLookup (l1 ++ l2) k =
      match alistLookup l1 k with
      | some v => some v
      | none => alistLookup l2 k := by
  induction l1 with
  | nil => rfl
  | cons e rest ih => by_cases he : e.1 = k <;> simp [alistLookup, he, ih]

theorem alistLookup_filter_kept {α β : Type} [DecidableEq α] (l : List (α × β))
    (p : α × β → Bool) (k : α) (hk : ∀ e ∈ l, e.1 = k → p e = true) :
    alistLookup (l.filter p) k = alistLookup l k := by
  induction l with
  | nil => rfl
  | cons e rest ih =>
    have ih2 := ih (fun e2 he2 hk2 => hk e2 (List.mem_cons_of_mem _ he2) hk2)
    by_cases hpe : p e = true
    · by_cases he : e.1 = k <;> simp [List.filter_cons, hpe, alistLookup, he, ih2]
    · have he : e.1 ≠ k := fun hek => hpe (hk e (List.mem_cons_self _ _) hek)
      simp [List.filter_cons, hpe, alistLookup, he, ih2]

theorem alistLookup_filter_removed {α β : Type} [DecidableEq α] (l : List (α × β))
    (p : α × β → Bool) (k : α) (hk : ∀ e ∈ l, e.1 = k → p e = false) :
    alistLookup (l.filter p) k = none := by
  induction l with
  | nil => rfl
  | cons e rest ih =>
    have ih2 := ih (fun e2 he2 hk2 => hk e2 (List.mem_cons_of_mem _ he2) hk2)
    by_cases hpe : p e = true
    · have he : e.1 ≠ k := fun hek => by
        rw [hk e (List.mem_cons_self _ _) hek] at hpe
        exact Bool.false_ne_true hpe
      simp [List.filter_cons, hpe, alistLookup, he, ih2]
    · simp [List.filter_cons, hpe, ih2]

theorem alistLookup_filter_ne {α β : Type} [DecidableEq α] (l : List (α × β)) (k : α) :
    alistLookup (l.filter (fun e => e.1 ≠ k)) k = none :=
  alistLookup_filter_removed l _ k (fun _ _ hek => by simp [hek])

theorem alistSet_lookup_self {α β : Type} [DecidableEq α] (l : List (α × β)) (k : α) (v : β) :
    alistLookup (alistSet l k v) k = some v := by
  unfold alistSet
  rw [alistLookup_append, alistLookup_filter_ne]
  simp [alistLookup]

theorem alistSet_lookup_ne {α β : Type} [DecidableEq α] (l : List (α × β)) (k k2 : α) (v : β)
    (h : k2 ≠ k) : alistLookup (alistSet l k v) k2 = alistLookup l k2 := by
  unfold alistSet
  rw [alistLookup_append, alistLookup_filter_kept l _ k2
    (fun e _ hek => by rw [hek]; simpa using h)]
  cases halo : alistLookup l k2 with
  | some v2 => rfl
  | none => simp [alistLookup, Ne.symm h]

theorem mem_alistSet {α β : Type} [DecidableEq α] (l : List (α × β)) (k : α) (v : β)
    (e : α × β) (h : e ∈ alistSet l k v) : (e ∈ l ∧ e.1 ≠ k) ∨ e = (k, v) := by
  unfold alistSet at h
  rcases List.mem_append.mp h with h1 | h1
  · have h2 := List.mem_filter.mp h1
    exact Or.inl ⟨h2.1, by simpa using h2.2⟩
  · exact Or.inr (by simpa using h1)

theorem foldl_alistSet_lookup_notmem {α β : Type} [DecidableEq α] (ks : List α) (v : β)
    (idx : List (α × β)) (k : α) (hk : k ∉ ks) :
    alistLookup (ks.foldl (fun acc x => alistSet acc x v) idx) k = alistLookup idx k := by
  induction ks generalizing idx with
  | nil => rfl
  | cons x rest ih =>
    rw [List.foldl_cons, ih _ (fun hm => hk (List.mem_cons_of_mem _ hm)),
      alistSet_lookup_ne _ _ _ _
        (fun he => hk (by rw [he]; exact List.mem_cons_self _ _))]

theorem foldl_alistSet_lookup_mem {α β : Type} [DecidableEq α] (ks : List α) (v : β)
    (idx : List (α × β)) (k : α) (hk : k ∈ ks) :
    alistLookup (ks.foldl (fun acc x => alistSet acc x v) idx) k = some v := by
  induction ks generalizing idx with
  | nil => cases hk
  | cons x rest ih =>
    rw [List.foldl_cons]
    by_cases hx : k ∈ rest
    · exact ih _ hx
    · have hkx : k = x := by
        rcases List.mem_cons.mp hk with h1 | h1
        · exact h1
        · exact absurd h1 hx
      rw [foldl_alistSet_lookup_notmem rest v (alistSet idx x v) k hx, hkx,
        alistSet_lookup_self]

theorem mem_foldl_alistSet {α β : Type} [DecidableEq α] (ks : List α) (v : β)
    (idx : List (α × β)) (e : α × β)
    (h : e ∈ ks.foldl (fun acc x => alistSet acc x v) idx) :
    (e ∈ idx ∧ e.1 ∉ ks) ∨ (e.1 ∈ ks ∧ e.2 = v) := by
  induction ks generalizing idx with
  | nil => exact Or.inl ⟨h, by simp⟩
  | cons x rest ih =>
    rw [List.foldl_cons] at h
    rcases ih _ h with ⟨hin, hnot⟩ | ⟨hin, hv⟩
    · rcases mem_alistSet _ _ _ _ hin with ⟨hin2, hne⟩ | heq
      · exact Or.inl ⟨hin2, by simp [hne, hnot]⟩
      · refine Or.inr ⟨?_, by rw [heq]⟩
        rw [heq]
        exact List.mem_cons_self _ _
    · exact Or.inr ⟨List.mem_cons_of_mem _ hin, hv⟩

/-! ## Components of `save` -/

theorem compileRegexp_hosts (p : ProxyData) (g : Bool) :
    (compileRegexp p g).1.hosts = p.hosts := rfl

theorem storeGet_storeSet_self (st : ProxiesState) (id : Nat) (p : ProxyData) :
    storeGet (storeSet st id p) id = p := by
  unfold storeGet storeSet
  simp [alistSet_lookup_self]

theorem storeGet_storeSet_ne (st : ProxiesState) (id j : Nat) (p : ProxyData)
    (h : j ≠ id) : storeGet (storeSet st id p) j = storeGet st j := by
  unfold storeGet storeSet
  simp [alistSet_lookup_ne _ _ _ _ h]

theorem save_proxies (st : ProxiesState) (id : Nat) :
    (save st id).proxies =
      if id ∈ st.proxies then st.proxies else st.proxies ++ [id] := by
  unfold save
  by_cases hc : id ∈ st.proxies <;> simp [hc, storeSet]

theorem save_storeGet_self_hosts (st : ProxiesState) (id : Nat) :
    (storeGet (save st id) id).hosts = (storeGet st id).hosts := by
  unfold save
  by_cases hc : id ∈ st.proxies <;>
    simp [hc, storeGet, storeSet, alistSet_lookup_self] <;>
      split <;> simp [compileRegexp_hosts]

theorem save_storeGet_ne (st : ProxiesState) (id j : Nat) (h : j ≠ id) :
    storeGet (save st id) j = storeGet st j := by
  unfold save
  by_cases hc : id ∈ st.proxies <;>
    simp [hc, storeGet, storeSet, alistSet_lookup_ne _ _ _ _ h]

theorem save_hostsIdx (st : ProxiesState) (id : Nat) :
    (save st id).hostsIdx =
      (storeGet st id).hosts.foldl (fun acc h => alistSet acc h id)
        (st.hostsIdx.filter
          (fun e => ¬(e.2 = id ∧ ¬ (storeGet st id).hosts.contains e.1))) := by
  unfold save
  by_cases hc : id ∈ st.proxies <;>
    simp [hc, storeGet, storeSet] <;>
      split <;> simp [compileRegexp_hosts]

/-- C6 amended: the host-index invariant is preserved by `save` provided the
saved proxy's hosts are disjoint from every *other* registered proxy's hosts —
which the auto-association guard (`!Zotero.Proxies.hosts[host]`) ensures for
the observe path, but which `save` itself does not check (see the
counterexample). -/
theorem c6_invariant_amended (st : ProxiesState) (id : Nat)
    (hinv : hostIndexInvariant st)
    (hdisj : ∀ j ∈ st.proxies, j ≠ id →
      ∀ h ∈ (storeGet st id).hosts, h ∉ (storeGet st j).hosts) :
    hostIndexInvariant (save st id) := by
  obtain ⟨hinv1, hinv2⟩ := hinv
  constructor
  · intro j hj h hh
    rw [save_hostsIdx]
    by_cases hjid : j = id
    · subst hjid
      rw [save_storeGet_self_hosts] at hh
      exact foldl_alistSet_lookup_mem _ _ _ _ hh
    · have hj2 : j ∈ st.proxies := by
        rw [save_proxies] at hj
        by_cases hc : id ∈ st.proxies
        · rwa [if_pos hc] at hj
        · rw [if_neg hc] at hj
          rcases List.mem_append.mp hj with h1 | h1
          · exact h1
          · exact absurd (by simpa using h1) hjid
      rw [save_storeGet_ne _ _ _ hjid] at hh
      have hnotin : h ∉ (storeGet st id).hosts := fun hmem => hdisj j hj2 hjid h hmem hh
      rw [foldl_alistSet_lookup_notmem _ _ _ _ hnotin, alistLookup_filter_kept]
      · exact hinv1 j hj2 h hh
      · intro e he hek
        have h2 := hinv2 e he
        have h3 : alistLookup st.hostsIdx e.1 = some e.2 := hinv1 e.2 h2.1 e.1 h2.2
        have h4 : alistLookup st.hostsIdx h = some j := hinv1 j hj2 h hh
        rw [hek, h4] at h3
        have h5 : j = e.2 := by injection h3
        simp [← h5, hjid]
  · intro e he
    rw [save_hostsIdx] at he
    rcases mem_foldl_alistSet _ _ _ _ he with ⟨hin, hnot⟩ | ⟨hin, hv⟩
    · have hfil := List.mem_filter.mp hin
      have h2 := hinv2 e hfil.1
      have heid : e.2 ≠ id := by
        intro heid
        have hkeep := hfil.2
        simp [heid] at hkeep
        exact hnot (by simpa using hkeep)
      constructor
      · rw [save_proxies]
        by_cases hc : id ∈ st.proxies
        · rw [if_pos hc]
          exact h2.1
        · rw [if_neg hc]
          exact List.mem_append_left _ h2.1
      · rw [save_storeGet_ne _ _ _ heid]
        exact h2.2
    · constructor
      · rw [save_proxies]
        by_cases hc : id ∈ st.proxies
        · rw [if_pos hc, hv]
          exact hc
        · rw [if_neg hc, hv]
          exact List.mem_append_right _ (by simp)
      · rw [hv, save_storeGet_self_hosts]
        exact hin

theorem c6_invariant_witness :
    hostIndexInvariant c6FreshState ∧ hostIndexInvariant (save c6FreshState 0) :=
  ⟨by decide, c6_invariant_amended c6FreshState 0 (by decide) (by decide)⟩

end ZoteroProxies
